import Mathlib

/-!
Shallow embedding of the run-orchestration core of this repository and proofs
about it.  The definitions below are translated from the TypeScript sources:

* `EnhancedAPIClient` (circuit breaker, retry loop, timeout handling, offline
  queue) from `lib/api-client-enhanced`;
* `useAgentStreamEnhanced` (ordered streamed text, stop handling, bounded
  error history) from the enhanced agent-stream hook;
* the distributed `RunLock` is modelled from the specification (its
  implementation is not part of the analysed sources).

Machine numbers are modelled as `Nat`/`Rat`; asynchronous timing is modelled
by explicit durations.  All definitions are executable.
-/

/-! ## Circuit breaker (EnhancedAPIClient) -/

/-- `enum CircuitState { CLOSED, OPEN, HALF_OPEN }`. -/
inductive CircuitState
  | closed
  | open_
  | halfOpen
  deriving DecidableEq, Repr

/-- `interface CircuitBreakerState { state; failureCount; lastFailureTime; successCount }`. -/
structure CircuitBreakerState where
  state : CircuitState
  failureCount : Nat
  lastFailureTime : Nat
  successCount : Nat
  deriving DecidableEq, Repr

/-- `DEFAULT_CIRCUIT_BREAKER_CONFIG.failureThreshold = 5`. -/
def failureThreshold : Nat := 5

/-- `DEFAULT_CIRCUIT_BREAKER_CONFIG.recoveryTimeout = 30000`. -/
def recoveryTimeout : Nat := 30000

/-- Fresh breaker created by `getCircuitBreaker` for an unseen endpoint. -/
def initialBreaker : CircuitBreakerState :=
  { state := .closed, failureCount := 0, lastFailureTime := 0, successCount := 0 }

/-- `recordSuccess(endpoint)`: increment `successCount`; if the breaker is
HALF_OPEN and the incremented count reaches 3, flip to CLOSED and reset
`failureCount` to 0.  (No other field changes; in particular a success while
CLOSED leaves `failureCount` untouched.) -/
def recordSuccess (cb : CircuitBreakerState) : CircuitBreakerState :=
  let cb := { cb with successCount := cb.successCount + 1 }
  if cb.state = .halfOpen ∧ 3 ≤ cb.successCount then
    { cb with state := .closed, failureCount := 0 }
  else
    cb

/-- `recordFailure(endpoint, error)`: increment `failureCount`, stamp
`lastFailureTime`; if the breaker is CLOSED and the incremented count reaches
`failureThreshold`, flip to OPEN (and schedule the recovery timer, modelled
separately as `recoveryFire`). -/
def recordFailure (cb : CircuitBreakerState) (now : Nat) : CircuitBreakerState :=
  let cb := { cb with failureCount := cb.failureCount + 1, lastFailureTime := now }
  if cb.state = .closed ∧ failureThreshold ≤ cb.failureCount then
    { cb with state := .open_ }
  else
    cb

/-- The `setTimeout` body scheduled by `recordFailure` when the breaker opens:
after `recoveryTimeout` elapses, if the breaker is still OPEN it becomes
HALF_OPEN with `successCount` reset to 0. -/
def recoveryFire (cb : CircuitBreakerState) : CircuitBreakerState :=
  if cb.state = .open_ then
    { cb with state := .halfOpen, successCount := 0 }
  else
    cb

/-- The observable routing decision of `EnhancedAPIClient.request`, in source
order: (1) an identical in-flight request (and `optimistic` unset) is served
from the dedup cache; (2) an OPEN breaker for the endpoint throws a
`CircuitBreakerError`; (3) offline requests are queued; (4) otherwise the
underlying `executeRequest` runs. -/
inductive RequestOutcome
  | deduped
  | breakerError
  | queuedOffline
  | executed (ok : Bool)
  deriving DecidableEq, Repr

/-- Whether an outcome actually invoked the underlying HTTP request. -/
def RequestOutcome.invoked : RequestOutcome → Bool
  | .executed _ => true
  | _ => false

/-- One `request` call: `inFlightDup` is whether `inFlightRequests` already
holds the request id, `optimistic` is `config.optimistic`, `online` is
`this.isOnline`, and `callOk` is whether the underlying `executeRequest`
resolves.  Returns the outcome together with the endpoint's updated breaker
(`recordSuccess` / `recordFailure` run only on the executed path). -/
def requestStep (inFlightDup optimistic online : Bool) (cb : CircuitBreakerState)
    (callOk : Bool) (now : Nat) : RequestOutcome × CircuitBreakerState :=
  if inFlightDup ∧ ¬optimistic then
    (.deduped, cb)
  else if cb.state = .open_ then
    (.breakerError, cb)
  else if ¬online then
    (.queuedOffline, cb)
  else if callOk then
    (.executed true, recordSuccess cb)
  else
    (.executed false, recordFailure cb now)

/-! ## Timeout handling (`performRequest`) -/

/-- Classified errors raised by `performRequest` / `executeRequest`. -/
inductive ApiError
  | timeoutError
  | networkError
  | httpError (status : Nat)
  | genericError (msg : String)
  deriving DecidableEq, Repr

/-- Timing of one `performRequest` call: how long the `supabase.auth.getSession()`
await takes, how long the `fetch` (with body parsing) would take if left alone,
and what the fetch resolves to when it completes. -/
structure RequestTiming where
  authDuration : Nat
  fetchDuration : Nat
  fetchOutcome : Except ApiError String
  deriving Repr

/-- `config.timeout || 30000`: JavaScript `||` also replaces a configured 0. -/
def effectiveTimeout (timeoutCfg : Option Nat) : Nat :=
  match timeoutCfg with
  | none => 30000
  | some 0 => 30000
  | some t => t

/-- Result of one `performRequest` call: how long the caller stayed blocked and
what the call resolved to. -/
structure PerformResult where
  elapsed : Nat
  result : Except ApiError String
  deriving Repr

/-- `performRequest(url, config)`.  `setTimeout(() => controller.abort(), T)`
starts the abort timer at time 0 with `T = config.timeout || 30000`.  The
`await supabase.auth.getSession()` that follows is *not* governed by the
abort signal, so the fetch only starts at `authDuration`.  The fetch is tied
to the signal: if the signal fired before the fetch starts it rejects at once,
and if it fires mid-flight the fetch is abandoned at time `T`; in the catch
block `controller.signal.aborted` converts either case into a `TimeoutError`.
(Tie-break: a fetch completing exactly when the timer fires is modelled as
aborted only if it had not yet completed, i.e. completion wins at `≤ T`.) -/
def performRequest (timeoutCfg : Option Nat) (t : RequestTiming) : PerformResult :=
  let T := effectiveTimeout timeoutCfg
  if T ≤ t.authDuration then
    -- signal already aborted when the fetch starts: immediate rejection,
    -- reported as a timeout; the caller was blocked for the whole auth await
    { elapsed := t.authDuration, result := .error .timeoutError }
  else if t.authDuration + t.fetchDuration ≤ T then
    { elapsed := t.authDuration + t.fetchDuration, result := t.fetchOutcome }
  else
    { elapsed := T, result := .error .timeoutError }

/-! ## Retry loop (`executeRequest`, `calculateRetryDelay`) -/

/-- `interface RetryConfig` (delays as rationals, matching JS doubles on the
values actually used). -/
structure RetryConfig where
  maxAttempts : Nat
  baseDelay : ℚ
  maxDelay : ℚ
  exponentialBase : ℚ
  jitterFactor : ℚ
  deriving Repr

/-- `DEFAULT_RETRY_CONFIG` (the `retryCondition` closure is passed separately
where needed). -/
def DEFAULT_RETRY_CONFIG : RetryConfig :=
  { maxAttempts := 3, baseDelay := 1000, maxDelay := 30000
    exponentialBase := 2, jitterFactor := 1/10 }

/-- `calculateRetryDelay(attempt, config)`: exponential backoff with jitter,
clamped into `[0, maxDelay]`.  `rand` stands for the `Math.random()` sample
(so `rand * 2 - 1 ∈ [-1, 1]`). -/
def calculateRetryDelay (attempt : Nat) (cfg : RetryConfig) (rand : ℚ) : ℚ :=
  let exponentialDelay := cfg.baseDelay * cfg.exponentialBase ^ (attempt - 1)
  let jitter := exponentialDelay * cfg.jitterFactor * (rand * 2 - 1)
  let totalDelay := min (exponentialDelay + jitter) cfg.maxDelay
  max totalDelay 0

/-- The `for (let attempt = 1; attempt <= maxAttempts; attempt++)` loop of
`executeRequest`, from attempt number `attempt` on.  `outcomes k` is what the
`performRequest` of attempt `k` resolves to, `cond` is
`retryConfig.retryCondition`.  Returns the number of the last attempt
performed together with the value returned / error thrown. -/
def executeRequestFrom (outcomes : Nat → Except ApiError String)
    (cond : ApiError → Nat → Bool) (maxAttempts : Nat) :
    (attempt : Nat) → Nat × Except ApiError String
  | attempt =>
    if _h : maxAttempts ≤ attempt then
      -- last admissible attempt: its outcome is returned / thrown as-is
      (attempt, outcomes attempt)
    else
      match outcomes attempt with
      | .ok v => (attempt, .ok v)
      | .error e =>
        if cond e attempt then
          executeRequestFrom outcomes cond maxAttempts (attempt + 1)
        else
          (attempt, .error e)
  termination_by attempt => maxAttempts - attempt

/-- `executeRequest(url, config, requestId)`: run attempts `1..maxAttempts`;
a success returns immediately, a failure retries only while
`attempt < maxAttempts && retryCondition(error, attempt)`; when the loop is
never entered (`maxAttempts = 0`) the generic
`'Request failed after all retry attempts'` error is thrown. -/
def executeRequest (outcomes : Nat → Except ApiError String)
    (cond : ApiError → Nat → Bool) (maxAttempts : Nat) :
    Nat × Except ApiError String :=
  if maxAttempts = 0 then
    (0, .error (.genericError "Request failed after all retry attempts"))
  else
    executeRequestFrom outcomes cond maxAttempts 1

/-! ## Streamed text ordering (`useAgentStreamEnhanced`) -/

/-- One streamed assistant chunk as stored in the hook's `textContent` state:
`{ sequence: (message as any).sequence, content: parsedContent.content }`.
`sequence` is optional in the wire format. -/
structure TextChunk where
  content : String
  sequence : Option Nat
  deriving DecidableEq, Repr

/-- The sort key used by the comparator `(a.sequence ?? 0) - (b.sequence ?? 0)`. -/
def chunkKey (c : TextChunk) : Nat :=
  c.sequence.getD 0

/-- The comparator's `≤` relation on chunks. -/
def seqLE (a b : TextChunk) : Prop :=
  chunkKey a ≤ chunkKey b

instance : DecidableRel seqLE := fun a b =>
  inferInstanceAs (Decidable (chunkKey a ≤ chunkKey b))

instance : IsTotal TextChunk seqLE :=
  ⟨fun a b => Nat.le_total (chunkKey a) (chunkKey b)⟩

instance : IsTrans TextChunk seqLE :=
  ⟨fun _ _ _ => Nat.le_trans⟩

/-- Strict version of the key order; used to state uniqueness of the sorted
arrangement when keys are pairwise distinct. -/
def seqLT (a b : TextChunk) : Prop :=
  chunkKey a < chunkKey b

instance : DecidableRel seqLT := fun a b =>
  inferInstanceAs (Decidable (chunkKey a < chunkKey b))

instance : IsAntisymm TextChunk seqLT :=
  ⟨fun _ _ h h' => absurd (Nat.lt_trans h h') (Nat.lt_irrefl _)⟩

/-- Arrival of one chunk: `setTextContent(prev => prev.concat({...}))` in
`handleStreamMessage`'s `assistant`/`chunk` branch. -/
def appendChunk (textContent : List TextChunk) (c : TextChunk) : List TextChunk :=
  textContent ++ [c]

/-- `orderedTextContent`:
`textContent.sort((a, b) => (a.sequence ?? 0) - (b.sequence ?? 0))
            .reduce((acc, curr) => acc + curr.content, '')`.
JavaScript `Array.prototype.sort` is a stable sort on this comparator, which
`List.insertionSort` by `seqLE` implements. -/
def orderedTextContent (textContent : List TextChunk) : String :=
  (textContent.insertionSort seqLE).foldl (fun acc curr => acc ++ curr.content) ""

/-- Concatenation of the contents of a list of chunks in list order. -/
def joinContents (l : List TextChunk) : String :=
  l.foldl (fun acc curr => acc ++ curr.content) ""

/-! ## Error history and stop handling (`useAgentStreamEnhanced`) -/

/-- Severity levels of `ErrorEvent`. -/
inductive Severity
  | low
  | medium
  | high
  | critical
  deriving DecidableEq, Repr

/-- Result of `classifyError`. -/
structure ErrorClass where
  type : String
  severity : Severity
  recoverable : Bool
  deriving DecidableEq, Repr

/-- JavaScript `String.prototype.includes`. -/
def jsIncludes (s sub : String) : Bool :=
  (List.range (s.toList.length + 1)).any fun n => sub.toList.isPrefixOf (s.toList.drop n)

/-- `classifyError(error)`: keyword-based classification on the lower-cased
message. -/
def classifyError (error : String) : ErrorClass :=
  let e := error.toLower
  if jsIncludes e "network" || jsIncludes e "connection" then
    ⟨"network", .medium, true⟩
  else if jsIncludes e "timeout" then
    ⟨"timeout", .medium, true⟩
  else if jsIncludes e "rate limit" then
    ⟨"rate_limit", .high, true⟩
  else if jsIncludes e "billing" || jsIncludes e "quota" then
    ⟨"billing", .critical, false⟩
  else if jsIncludes e "authentication" then
    ⟨"auth", .critical, false⟩
  else
    ⟨"unknown", .medium, true⟩

/-- `interface ErrorEvent { timestamp; type; message; severity; recoverable }`. -/
structure StreamErrorEvent where
  timestamp : Nat
  type : String
  message : String
  severity : Severity
  recoverable : Bool
  deriving DecidableEq, Repr

/-- The `ErrorEvent` built inside `addError` from the current time and the
classification of the message. -/
def mkErrorEvent (now : Nat) (msg : String) : StreamErrorEvent :=
  let c := classifyError msg
  { timestamp := now, type := c.type, message := msg
    severity := c.severity, recoverable := c.recoverable }

/-- `errorHistory: [...prev.errorHistory.slice(-9), errorEvent]`: keep the
last 9 previous errors and append the new one.  `slice(-9)` on a list of
length `n` keeps the last `min 9 n` entries, i.e. drops the first `n - 9`. -/
def addErrorHistory (hist : List StreamErrorEvent) (e : StreamErrorEvent) :
    List StreamErrorEvent :=
  hist.drop (hist.length - 9) ++ [e]

/-- The hook state mutated by `useAgentStreamEnhanced`'s actions (callback
invocations and toasts are external effects and not part of the state). -/
structure StreamHookState where
  status : String
  agentRunId : Option String
  currentRunId : Option String
  heartbeatActive : Bool
  statusPollActive : Bool
  streamActive : Bool
  progressPct : Nat
  currentStep : String
  completedSteps : List String
  errorHistory : List StreamErrorEvent
  isMounted : Bool
  deriving DecidableEq, Repr

/-- `addError(errorMessage)`: guarded by `isMountedRef`, classifies the
message and appends it to the bounded history. -/
def addError (s : StreamHookState) (now : Nat) (msg : String) : StreamHookState :=
  if ¬s.isMounted then s
  else { s with errorHistory := addErrorHistory s.errorHistory (mkErrorEvent now msg) }

/-- `updateProgress(updates)`: guarded by `isMountedRef`; merges the updates
into the progress record and, when the step changes, archives the previous
(truthy, not yet archived) step into `completedSteps`. -/
def updateProgress (s : StreamHookState) (pct : Option Nat) (step : Option String) :
    StreamHookState :=
  if ¬s.isMounted then s
  else
    let newPct := pct.getD s.progressPct
    let newStep := step.getD s.currentStep
    let completed :=
      match step with
      | some st =>
        if st ≠ "" ∧ st ≠ s.currentStep ∧ s.currentStep ≠ "" ∧
            s.currentStep ∉ s.completedSteps then
          s.completedSteps ++ [s.currentStep]
        else
          s.completedSteps
      | none => s.completedSteps
    { s with progressPct := newPct, currentStep := newStep, completedSteps := completed }

/-- `stopStreaming()`: early-return unless mounted with a current run id;
`await stopAgent(...)` (its success is the parameter `stopOk`); on success
tear down the stream and the two pollers, set status `'stopped'`, clear both
run-id fields and reset progress; on failure only record the error. -/
def stopStreaming (s : StreamHookState) (stopOk : Bool) (now : Nat)
    (errText : String) : StreamHookState :=
  if ¬s.isMounted ∨ s.currentRunId = none then s
  else if stopOk then
    let s1 := { s with streamActive := false, heartbeatActive := false,
                       statusPollActive := false, status := "stopped",
                       agentRunId := none, currentRunId := none }
    updateProgress s1 (some 0) (some "Stopped")
  else
    addError s now ("Failed to stop agent: " ++ errText)

/-! ## Offline request queue (`queueRequest`, `startQueueProcessor`) -/

/-- `interface QueuedRequest` (the `resolve`/`reject` continuations and the
full config are irrelevant to queue ordering and elided). -/
structure QueuedRequest where
  id : String
  url : String
  priority : Nat
  timestamp : Nat
  deriving DecidableEq, Repr

/-- `queueRequest`'s insertion:
`insertIndex = queue.findIndex(req => req.priority < queuedRequest.priority)`;
`-1` (no strictly-lower-priority entry, here `findIndex = length`) pushes at
the end, otherwise `splice(insertIndex, 0, queuedRequest)`. -/
def queueInsert (q : List QueuedRequest) (r : QueuedRequest) : List QueuedRequest :=
  let insertIndex := q.findIdx fun x => x.priority < r.priority
  if insertIndex = q.length then q ++ [r]
  else q.insertIdx insertIndex r

/-- The dequeue step of `startQueueProcessor`: `this.requestQueue.shift()`
takes the front of the queue. -/
def queueShift (q : List QueuedRequest) : Option QueuedRequest × List QueuedRequest :=
  (q.head?, q.tail)

/-- Non-increasing priorities from front to back. -/
def QueueSorted (q : List QueuedRequest) : Prop :=
  q.Pairwise fun a b => b.priority ≤ a.priority

instance (q : List QueuedRequest) : Decidable (QueueSorted q) :=
  inferInstanceAs
    (Decidable (q.Pairwise fun a b : QueuedRequest => b.priority ≤ a.priority))

/-! ## RunLock (modelled from the spec) -/

/-- Modelled from the spec: the analysed sources contain no RunLock
implementation (only the architecture notes describing the Redis
`agent_run_lock:*` keys), so the lock store is modelled from §3/§4.1 of the
specification: `RunLock: {runId, holderId, acquiredAt, expiresAt}`. -/
structure RunLockRecord where
  runId : String
  holderId : String
  acquiredAt : Nat
  expiresAt : Nat
  deriving DecidableEq, Repr

/-- Modelled from the spec: operations against the shared lock store.
Concurrent scheduler claims serialize through the store's atomic test-and-set,
so any concurrent execution is some timestamped sequence of these events. -/
inductive LockOp
  | acquire (runId holderId : String) (ttl : Nat)
  | release (runId holderId : String)
  | renew (runId holderId : String) (ttl : Nat)
  deriving DecidableEq, Repr

/-- Modelled from the spec: a lock record valid (non-expired) at instant
`t`. -/
def lockValidAt (l : RunLockRecord) (t : Nat) : Prop :=
  t < l.expiresAt

instance (l : RunLockRecord) (t : Nat) : Decidable (lockValidAt l t) :=
  inferInstanceAs (Decidable (t < l.expiresAt))

/-- Modelled from the spec: one atomic step against the lock store at time
`now`.  `acquire` is test-and-set: it fails (store unchanged) whenever a
non-expired lock for the same runId exists and otherwise installs a fresh
record with expiry `now + ttl`; `release` removes the holder's record; `renew`
extends the expiry of the holder's non-expired record. -/
def lockApplyOp (store : List RunLockRecord) (now : Nat) : LockOp → List RunLockRecord
  | .acquire runId holderId ttl =>
    if store.any fun l => l.runId = runId ∧ lockValidAt l now then
      store
    else
      ⟨runId, holderId, now, now + ttl⟩ :: store
  | .release runId holderId =>
    store.filter fun l => ¬(l.runId = runId ∧ l.holderId = holderId)
  | .renew runId holderId ttl =>
    store.map fun l =>
      if l.runId = runId ∧ l.holderId = holderId ∧ lockValidAt l now then
        { l with expiresAt := now + ttl }
      else
        l

/-- Modelled from the spec: run a timestamped event sequence against the
store. -/
def lockApplyOps (store : List RunLockRecord) : List (Nat × LockOp) → List RunLockRecord
  | [] => store
  | (t, op) :: rest => lockApplyOps (lockApplyOp store t op) rest

/-- Modelled from the spec: at most one non-expired lock per runId at instant
`t` — any two valid records for the same run coincide (same holder, same
expiry). -/
def AtMostOneValid (store : List RunLockRecord) (t : Nat) : Prop :=
  ∀ l1 ∈ store, ∀ l2 ∈ store,
    l1.runId = l2.runId → lockValidAt l1 t → lockValidAt l2 t → l1 = l2

/-- Modelled from the spec: the timestamp of the last event of a run of the
lock store, defaulting to the start instant. -/
def lockOpsEndTime (t0 : Nat) (ops : List (Nat × LockOp)) : Nat :=
  ops.foldl (fun _ e => e.1) t0

/-- Recursive characterisation of `queueInsert` (insert immediately before the
first entry of strictly lower priority, or at the end); used to relate the
`findIndex`/`splice` formulation to structural induction. -/
def queueInsertAux : List QueuedRequest → QueuedRequest → List QueuedRequest
  | [], r => [r]
  | x :: xs, r =>
    if x.priority < r.priority then r :: x :: xs
    else x :: queueInsertAux xs r

/-! # Theorems -/

/-! ## C1: fail-fast on an OPEN breaker, and when the breaker opens -/

/-- C1 counterexample: a request whose id matches an in-flight request (and
`optimistic` unset) is served from the dedup cache even though the endpoint's
breaker is OPEN — it is not failed fast with the circuit-breaker error, so the
claim's universal statement over *every* request is false. -/
theorem C1_counterexample :
    (requestStep true false true ⟨.open_, 5, 0, 0⟩ true 0).1 = .deduped ∧
    (requestStep true false true ⟨.open_, 5, 0, 0⟩ true 0).1 ≠ .breakerError := by
  decide

/-- C1 (amended): for every request that is not served from the in-flight
deduplication cache, if the breaker for its endpoint is OPEN the gateway
fails fast with the structured circuit-breaker error, does not invoke the
underlying call, and leaves the breaker unchanged; and `recordFailure` makes
the breaker enter OPEN exactly when it was CLOSED and the incremented
consecutive-failure count reaches the threshold 5. -/
theorem C1_breaker_open_fails_fast (dup opt online callOk : Bool)
    (cb cb2 : CircuitBreakerState) (now now2 : Nat)
    (hdedup : dup = false ∨ opt = true) (hopen : cb.state = .open_) :
    (requestStep dup opt online cb callOk now).1 = .breakerError ∧
    ((requestStep dup opt online cb callOk now).1.invoked = false) ∧
    (requestStep dup opt online cb callOk now).2 = cb ∧
    (((recordFailure cb2 now2).state = .open_ ∧ cb2.state ≠ .open_) ↔
      (cb2.state = .closed ∧ failureThreshold ≤ cb2.failureCount + 1)) := by
  have hstep : requestStep dup opt online cb callOk now = (.breakerError, cb) := by
    unfold requestStep
    rcases hdedup with h | h <;> subst h <;> simp [hopen]
  refine ⟨by rw [hstep], by rw [hstep]; rfl, by rw [hstep], ?_⟩
  unfold recordFailure
  rcases cb2 with ⟨st, fc, lt, sc⟩
  cases st
  · simp only [failureThreshold]
    split_ifs <;> simp_all
  · simp [failureThreshold]
  · simp [failureThreshold]

/-- C1 witness: the amended theorem applied at a concrete OPEN breaker. -/
theorem C1_witness :
    (requestStep false false true ⟨.open_, 5, 17, 0⟩ true 3).1 = .breakerError ∧
    ((requestStep false false true ⟨.open_, 5, 17, 0⟩ true 3).1.invoked = false) ∧
    (requestStep false false true ⟨.open_, 5, 17, 0⟩ true 3).2 = ⟨.open_, 5, 17, 0⟩ ∧
    (((recordFailure ⟨.closed, 4, 0, 0⟩ 9).state = .open_ ∧
        (⟨.closed, 4, 0, 0⟩ : CircuitBreakerState).state ≠ .open_) ↔
      ((⟨.closed, 4, 0, 0⟩ : CircuitBreakerState).state = .closed ∧
        failureThreshold ≤ (⟨.closed, 4, 0, 0⟩ : CircuitBreakerState).failureCount + 1)) :=
  C1_breaker_open_fails_fast false false true true ⟨.open_, 5, 17, 0⟩ ⟨.closed, 4, 0, 0⟩ 3 9
    (Or.inl rfl) rfl

/-! ## C4: what a recorded success does to the breaker -/

/-- C4 counterexample: a success recorded while the breaker is CLOSED leaves
the failure count at 2 instead of resetting it to 0; moreover in HALF_OPEN the
three successes needed to close the breaker need not be consecutive — an
intervening failure does not reset the success count, so
success, success, failure, success still flips the breaker to CLOSED. -/
theorem C4_counterexample :
    (recordSuccess ⟨.closed, 2, 0, 0⟩).failureCount = 2 ∧
    (recordSuccess ⟨.closed, 2, 0, 0⟩).failureCount ≠ 0 ∧
    (recordSuccess (recordFailure
        (recordSuccess (recordSuccess ⟨.halfOpen, 5, 0, 0⟩)) 9)).state = .closed := by
  decide

/-- C4 (amended): a recorded success increments the success count; the failure
count is reset to 0 exactly when the breaker is HALF_OPEN and the incremented
success count reaches 3, at which point the breaker flips to CLOSED; in every
other situation (in particular any success while CLOSED) the failure count and
the state are unchanged.  A recorded failure never changes the success count,
so the three successes closing a HALF_OPEN breaker are cumulative, not
consecutive. -/
theorem C4_recordSuccess_spec (cb : CircuitBreakerState) (now : Nat) :
    (recordSuccess cb).successCount = cb.successCount + 1 ∧
    (cb.state = .halfOpen ∧ 3 ≤ cb.successCount + 1 →
      (recordSuccess cb).state = .closed ∧ (recordSuccess cb).failureCount = 0) ∧
    (¬(cb.state = .halfOpen ∧ 3 ≤ cb.successCount + 1) →
      (recordSuccess cb).failureCount = cb.failureCount ∧
      (recordSuccess cb).state = cb.state) ∧
    (recordFailure cb now).successCount = cb.successCount := by
  rcases cb with ⟨st, fc, lt, sc⟩
  unfold recordSuccess recordFailure
  cases st <;> simp <;> (split_ifs <;> simp_all)

/-- C4 witness: the amended theorem applied at a HALF_OPEN breaker with two
previous successes. -/
theorem C4_witness :
    (recordSuccess ⟨.halfOpen, 5, 0, 2⟩).successCount =
      (⟨.halfOpen, 5, 0, 2⟩ : CircuitBreakerState).successCount + 1 ∧
    ((⟨.halfOpen, 5, 0, 2⟩ : CircuitBreakerState).state = .halfOpen ∧
        3 ≤ (⟨.halfOpen, 5, 0, 2⟩ : CircuitBreakerState).successCount + 1 →
      (recordSuccess ⟨.halfOpen, 5, 0, 2⟩).state = .closed ∧
      (recordSuccess ⟨.halfOpen, 5, 0, 2⟩).failureCount = 0) ∧
    (¬((⟨.halfOpen, 5, 0, 2⟩ : CircuitBreakerState).state = .halfOpen ∧
        3 ≤ (⟨.halfOpen, 5, 0, 2⟩ : CircuitBreakerState).successCount + 1) →
      (recordSuccess ⟨.halfOpen, 5, 0, 2⟩).failureCount =
        (⟨.halfOpen, 5, 0, 2⟩ : CircuitBreakerState).failureCount ∧
      (recordSuccess ⟨.halfOpen, 5, 0, 2⟩).state =
        (⟨.halfOpen, 5, 0, 2⟩ : CircuitBreakerState).state) ∧
    (recordFailure ⟨.halfOpen, 5, 0, 2⟩ 4).successCount =
      (⟨.halfOpen, 5, 0, 2⟩ : CircuitBreakerState).successCount :=
  C4_recordSuccess_spec ⟨.halfOpen, 5, 0, 2⟩ 4

/-! ## C5: recovery to HALF_OPEN and probing -/

/-- C5 counterexample: with the breaker HALF_OPEN, a first request is passed
through to the underlying call and — before any breaker transition — a second
request is passed through as well (the gate only blocks the OPEN state), so
HALF_OPEN does not restrict traffic to exactly one probe. -/
theorem C5_counterexample :
    (requestStep false false true ⟨.halfOpen, 5, 0, 0⟩ true 0).1.invoked = true ∧
    (requestStep false false true
        (requestStep false false true ⟨.halfOpen, 5, 0, 0⟩ true 0).2 true 1).1.invoked
      = true := by
  decide

/-- C5 (amended): after a breaker flips to OPEN, the recovery timer scheduled
for the cool-down period moves it (if still OPEN) to HALF_OPEN with the
success count reset to 0; while HALF_OPEN, every online, non-deduplicated
invocation is passed through to the underlying call — the code places no
single-probe limit on the HALF_OPEN state. -/
theorem C5_halfOpen_spec (dup opt callOk : Bool) (cb cb2 : CircuitBreakerState)
    (now : Nat) (hopen : cb.state = .open_) (hhalf : cb2.state = .halfOpen)
    (hdedup : dup = false ∨ opt = true) :
    (recoveryFire cb).state = .halfOpen ∧ (recoveryFire cb).successCount = 0 ∧
    (requestStep dup opt true cb2 callOk now).1.invoked = true := by
  refine ⟨by unfold recoveryFire; simp [hopen], by unfold recoveryFire; simp [hopen], ?_⟩
  unfold requestStep
  rcases hdedup with h | h <;> subst h <;>
    simp [hhalf] <;> cases callOk <;> simp [RequestOutcome.invoked]

/-- C5 witness: the amended theorem at an OPEN breaker and a HALF_OPEN one. -/
theorem C5_witness :
    (recoveryFire ⟨.open_, 5, 11, 2⟩).state = .halfOpen ∧
    (recoveryFire ⟨.open_, 5, 11, 2⟩).successCount = 0 ∧
    (requestStep false false true ⟨.halfOpen, 5, 11, 0⟩ false 3).1.invoked = true :=
  C5_halfOpen_spec false false false ⟨.open_, 5, 11, 2⟩ ⟨.halfOpen, 5, 11, 0⟩ 3
    rfl rfl (Or.inl rfl)

/-! ## C9: bounded error history -/

/-- C9: recording an error keeps the history at no more than 10 entries, the
new error is the last entry, and everything before it is a suffix of the
previous history (the newest previously retained errors, in their original
relative order). -/
theorem C9_error_history_bounded (s : StreamHookState) (now : Nat) (msg : String)
    (hm : s.isMounted = true) :
    ((addError s now msg).errorHistory).length ≤ 10 ∧
    ((addError s now msg).errorHistory).getLast? = some (mkErrorEvent now msg) ∧
    ((addError s now msg).errorHistory).dropLast <:+ s.errorHistory := by
  have hred : (addError s now msg).errorHistory =
      s.errorHistory.drop (s.errorHistory.length - 9) ++ [mkErrorEvent now msg] := by
    unfold addError addErrorHistory
    simp [hm]
  rw [hred]
  refine ⟨?_, ?_, ?_⟩
  · simp only [List.length_append, List.length_drop, List.length_cons, List.length_nil]
    omega
  · exact List.getLast?_concat _
  · rw [List.dropLast_concat]
    exact List.drop_suffix _ _

/-- C9 witness: the theorem applied to a mounted state with two prior
errors. -/
theorem C9_witness :
    ((addError ⟨"streaming", some "r", some "r", true, true, true, 50, "x", [],
        [mkErrorEvent 1 "a", mkErrorEvent 2 "b"], true⟩ 7 "timeout").errorHistory).length
      ≤ 10 ∧
    ((addError ⟨"streaming", some "r", some "r", true, true, true, 50, "x", [],
        [mkErrorEvent 1 "a", mkErrorEvent 2 "b"], true⟩ 7 "timeout").errorHistory).getLast?
      = some (mkErrorEvent 7 "timeout") ∧
    ((addError ⟨"streaming", some "r", some "r", true, true, true, 50, "x", [],
        [mkErrorEvent 1 "a", mkErrorEvent 2 "b"], true⟩ 7 "timeout").errorHistory).dropLast
      <:+ [mkErrorEvent 1 "a", mkErrorEvent 2 "b"] :=
  C9_error_history_bounded
    ⟨"streaming", some "r", some "r", true, true, true, 50, "x", [],
      [mkErrorEvent 1 "a", mkErrorEvent 2 "b"], true⟩ 7 "timeout" rfl

/-! ## C10: priority order of the offline queue -/

/-- Helper: the `findIndex`/`splice` insertion agrees with the structural
recursion inserting before the first strictly-lower-priority entry. -/
theorem queueInsert_eq_aux (q : List QueuedRequest) (r : QueuedRequest) :
    queueInsert q r = queueInsertAux q r := by
  induction q with
  | nil => rfl
  | cons x xs ih =>
    by_cases hx : x.priority < r.priority
    · simp [queueInsert, queueInsertAux, List.findIdx_cons, hx]
    · have hidx : ((x :: xs).findIdx fun y => y.priority < r.priority) =
          (xs.findIdx fun y => y.priority < r.priority) + 1 := by
        rw [List.findIdx_cons]
        simp [hx]
      by_cases hlen : (xs.findIdx fun y => y.priority < r.priority) = xs.length
      · have haux : queueInsertAux xs r = xs ++ [r] := by
          rw [← ih]; simp [queueInsert, hlen]
        simp [queueInsert, queueInsertAux, hidx, hlen, hx, haux]
      · have haux : queueInsertAux xs r =
            xs.insertIdx (xs.findIdx fun y => y.priority < r.priority) r := by
          rw [← ih]; simp [queueInsert, hlen]
        have hne : ¬((xs.findIdx fun y => y.priority < r.priority) + 1 = xs.length + 1) := by
          omega
        simp [queueInsert, queueInsertAux, hidx, hne, hx, haux, List.insertIdx_succ_cons]

/-- Helper: membership in the inserted queue. -/
theorem mem_queueInsertAux (q : List QueuedRequest) (r x : QueuedRequest) :
    x ∈ queueInsertAux q r ↔ x = r ∨ x ∈ q := by
  induction q with
  | nil => simp [queueInsertAux]
  | cons y ys ih =>
    unfold queueInsertAux
    by_cases hy : y.priority < r.priority
    · simp [hy]
    · simp [hy, ih]
      tauto

/-- Helper: inserting preserves the non-increasing priority invariant. -/
theorem queueInsertAux_sorted (q : List QueuedRequest) (r : QueuedRequest)
    (hs : QueueSorted q) : QueueSorted (queueInsertAux q r) := by
  induction q with
  | nil => simp [queueInsertAux, QueueSorted]
  | cons x xs ih =>
    rw [QueueSorted, List.pairwise_cons] at hs
    obtain ⟨hx, hxs⟩ := hs
    unfold queueInsertAux
    by_cases hlt : x.priority < r.priority
    · simp only [hlt, if_pos]
      rw [QueueSorted, List.pairwise_cons]
      refine ⟨?_, ?_⟩
      · intro b hb
        rcases List.mem_cons.mp hb with h | h
        · exact h ▸ Nat.le_of_lt hlt
        · exact Nat.le_trans (hx b h) (Nat.le_of_lt hlt)
      · rw [QueueSorted, List.pairwise_cons] at *
        exact ⟨hx, hxs⟩
    · simp only [hlt, if_neg, if_false]
      rw [QueueSorted, List.pairwise_cons]
      refine ⟨?_, ih hxs⟩
      intro b hb
      rcases (mem_queueInsertAux xs r b).mp hb with h | h
      · subst h; omega
      · exact hx b h

/-- Helper: the structural insertion as takeWhile/dropWhile decomposition. -/
theorem queueInsertAux_decomp (q : List QueuedRequest) (r : QueuedRequest) :
    queueInsertAux q r =
      q.takeWhile (fun x => r.priority ≤ x.priority) ++
        r :: q.dropWhile (fun x => r.priority ≤ x.priority) := by
  induction q with
  | nil => rfl
  | cons x xs ih =>
    unfold queueInsertAux
    by_cases hx : x.priority < r.priority
    · have hb : (fun x : QueuedRequest => decide (r.priority ≤ x.priority)) x = false := by
        simp; omega
      simp [hx, List.takeWhile_cons, List.dropWhile_cons, hb]
    · have hb : (fun x : QueuedRequest => decide (r.priority ≤ x.priority)) x = true := by
        simp; omega
      simp [hx, List.takeWhile_cons, List.dropWhile_cons, hb, ih]

/-- C10: inserting into a priority-sorted offline queue places the request
immediately before the first queued request of strictly lower priority (after
all entries of greater or equal priority, so equal priorities stay in enqueue
order) and keeps the queue sorted in non-increasing priority order; the queue
processor dequeues from the front, which on a sorted queue always carries a
maximal-priority request. -/
theorem C10_queue_priority_order (q : List QueuedRequest) (r : QueuedRequest)
    (hs : QueueSorted q) :
    queueInsert q r =
      q.takeWhile (fun x => r.priority ≤ x.priority) ++
        r :: q.dropWhile (fun x => r.priority ≤ x.priority) ∧
    QueueSorted (queueInsert q r) ∧
    (∀ f, (queueShift q).1 = some f → ∀ x ∈ q, x.priority ≤ f.priority) := by
  refine ⟨(queueInsert_eq_aux q r).trans (queueInsertAux_decomp q r),
    (queueInsert_eq_aux q r) ▸ queueInsertAux_sorted q r hs, ?_⟩
  intro f hf x hx
  rcases q with _ | ⟨y, ys⟩
  · simp [queueShift] at hf
  · simp only [queueShift, List.head?_cons, Option.some.injEq] at hf
    subst hf
    rw [QueueSorted, List.pairwise_cons] at hs
    rcases List.mem_cons.mp hx with h | h
    · exact h ▸ Nat.le_refl _
    · exact hs.1 x h

/-- C10 witness: the theorem applied to a concrete sorted queue. -/
theorem C10_witness :
    queueInsert [⟨"a", "u", 3, 0⟩, ⟨"b", "u", 2, 1⟩, ⟨"d", "u", 1, 3⟩] ⟨"e", "u", 2, 4⟩ =
      ([⟨"a", "u", 3, 0⟩, ⟨"b", "u", 2, 1⟩, ⟨"d", "u", 1, 3⟩] :
          List QueuedRequest).takeWhile
          (fun x => (⟨"e", "u", 2, 4⟩ : QueuedRequest).priority ≤ x.priority) ++
        ⟨"e", "u", 2, 4⟩ ::
          ([⟨"a", "u", 3, 0⟩, ⟨"b", "u", 2, 1⟩, ⟨"d", "u", 1, 3⟩] :
              List QueuedRequest).dropWhile
            (fun x => (⟨"e", "u", 2, 4⟩ : QueuedRequest).priority ≤ x.priority) ∧
    QueueSorted (queueInsert [⟨"a", "u", 3, 0⟩, ⟨"b", "u", 2, 1⟩, ⟨"d", "u", 1, 3⟩]
      ⟨"e", "u", 2, 4⟩) ∧
    (∀ f, (queueShift [⟨"a", "u", 3, 0⟩, ⟨"b", "u", 2, 1⟩, ⟨"d", "u", 1, 3⟩]).1 = some f →
      ∀ x ∈ [(⟨"a", "u", 3, 0⟩ : QueuedRequest), ⟨"b", "u", 2, 1⟩, ⟨"d", "u", 1, 3⟩],
        x.priority ≤ f.priority) :=
  C10_queue_priority_order [⟨"a", "u", 3, 0⟩, ⟨"b", "u", 2, 1⟩, ⟨"d", "u", 1, 3⟩]
    ⟨"e", "u", 2, 4⟩ (by decide)

/-! ## C7: idempotence of stop -/

/-- Helper: with no current run id, `stopStreaming` returns the state
unchanged (the early-return guard). -/
theorem stopStreaming_noop (s : StreamHookState) (ok : Bool) (now : Nat)
    (txt : String) (h : s.currentRunId = none) :
    stopStreaming s ok now txt = s := by
  unfold stopStreaming
  rw [if_pos (Or.inr h)]

/-- Helper: a successful stop on a mounted state with an active run clears the
run ids and sets the stopped status. -/
theorem stopStreaming_success_fields (s : StreamHookState) (now : Nat)
    (txt : String) (r : String) (hm : s.isMounted = true)
    (hr : s.currentRunId = some r) :
    (stopStreaming s true now txt).status = "stopped" ∧
    (stopStreaming s true now txt).currentRunId = none ∧
    (stopStreaming s true now txt).agentRunId = none ∧
    (stopStreaming s true now txt).isMounted = true := by
  unfold stopStreaming
  rw [if_neg (by simp [hm, hr])]
  simp only [if_pos rfl]
  unfold updateProgress
  simp [hm]

/-- C7: stopping is idempotent.  When no run is active (the current run id is
already cleared — in particular after any successful stop, which is the only
transition to the stopped status) a further stop call is a no-op leaving the
state unchanged; and a successful stop on a mounted state with an active run
ends with status "stopped" and both run-id fields cleared. -/
theorem C7_stop_idempotent (s : StreamHookState) (ok ok2 : Bool)
    (now now2 : Nat) (txt txt2 : String) (r : String) :
    (s.currentRunId = none → stopStreaming s ok now txt = s) ∧
    stopStreaming (stopStreaming s true now txt) ok2 now2 txt2 =
      stopStreaming s true now txt ∧
    (s.isMounted = true → s.currentRunId = some r →
      (stopStreaming s true now txt).status = "stopped" ∧
      (stopStreaming s true now txt).currentRunId = none ∧
      (stopStreaming s true now txt).agentRunId = none) := by
  refine ⟨fun h => stopStreaming_noop s ok now txt h, ?_, ?_⟩
  · by_cases hm : s.isMounted = true
    · rcases hr : s.currentRunId with _ | rid
      · rw [stopStreaming_noop s true now txt hr, stopStreaming_noop s ok2 now2 txt2 hr]
      · exact stopStreaming_noop _ ok2 now2 txt2
          (stopStreaming_success_fields s now txt rid hm hr).2.1
    · have hguard : stopStreaming s true now txt = s := by
        unfold stopStreaming
        rw [if_pos (Or.inl hm)]
      rw [hguard]
      unfold stopStreaming
      rw [if_pos (Or.inl hm)]
  · intro hm hr
    exact ⟨(stopStreaming_success_fields s now txt r hm hr).1,
      (stopStreaming_success_fields s now txt r hm hr).2.1,
      (stopStreaming_success_fields s now txt r hm hr).2.2.1⟩

/-- C7 witness: the theorem applied to a mounted streaming state with an
active run. -/
theorem C7_witness :
    ((⟨"streaming", some "run1", some "run1", true, true, true, 50, "Running tools",
        [], [], true⟩ : StreamHookState).currentRunId = none →
      stopStreaming ⟨"streaming", some "run1", some "run1", true, true, true, 50,
        "Running tools", [], [], true⟩ false 5 "e" =
        ⟨"streaming", some "run1", some "run1", true, true, true, 50, "Running tools",
          [], [], true⟩) ∧
    stopStreaming (stopStreaming ⟨"streaming", some "run1", some "run1", true, true,
        true, 50, "Running tools", [], [], true⟩ true 5 "e") true 6 "f" =
      stopStreaming ⟨"streaming", some "run1", some "run1", true, true, true, 50,
        "Running tools", [], [], true⟩ true 5 "e" ∧
    ((⟨"streaming", some "run1", some "run1", true, true, true, 50, "Running tools",
        [], [], true⟩ : StreamHookState).isMounted = true →
      (⟨"streaming", some "run1", some "run1", true, true, true, 50, "Running tools",
        [], [], true⟩ : StreamHookState).currentRunId = some "run1" →
      (stopStreaming ⟨"streaming", some "run1", some "run1", true, true, true, 50,
        "Running tools", [], [], true⟩ true 5 "e").status = "stopped" ∧
      (stopStreaming ⟨"streaming", some "run1", some "run1", true, true, true, 50,
        "Running tools", [], [], true⟩ true 5 "e").currentRunId = none ∧
      (stopStreaming ⟨"streaming", some "run1", some "run1", true, true, true, 50,
        "Running tools", [], [], true⟩ true 5 "e").agentRunId = none) :=
  C7_stop_idempotent ⟨"streaming", some "run1", some "run1", true, true, true, 50,
    "Running tools", [], [], true⟩ false true 5 6 "e" "f" "run1"

/-! ## C2: streamed text is ordered by sequence number -/

/-- Helper: appending arriving chunks one by one yields the arrival list. -/
theorem foldl_appendChunk (arrivals : List TextChunk) :
    ∀ acc, List.foldl appendChunk acc arrivals = acc ++ arrivals := by
  induction arrivals with
  | nil => intro acc; simp
  | cons c cs ih => intro acc; simp [appendChunk, ih]

/-- Helper: with pairwise-distinct sort keys, the stable sort used by
`orderedTextContent` is sorted for the strict key order. -/
theorem insertionSort_sorted_lt (l : List TextChunk)
    (h : (l.map chunkKey).Nodup) :
    (l.insertionSort seqLE).Sorted seqLT := by
  have hperm : (l.insertionSort seqLE).Perm l := List.perm_insertionSort seqLE l
  have hle : (l.insertionSort seqLE).Sorted seqLE := List.sorted_insertionSort seqLE l
  have hnd : ((l.insertionSort seqLE).map chunkKey).Nodup :=
    ((hperm.map chunkKey).nodup_iff).mpr h
  have hne : (l.insertionSort seqLE).Pairwise fun a b => chunkKey a ≠ chunkKey b := by
    rw [List.Nodup, List.pairwise_map] at hnd
    exact hnd
  exact (hle.and hne).imp fun hab => Nat.lt_of_le_of_ne hab.1 hab.2

/-- Helper: any two strictly-sorted arrangements of the same chunks are
equal. -/
theorem sorted_arrangement_unique (l1 l2 : List TextChunk) (hperm : l1.Perm l2)
    (h1 : l1.Sorted seqLT) (h2 : l2.Sorted seqLT) : l1 = l2 :=
  List.eq_of_perm_of_sorted hperm h1 h2

/-- C2: for chunks carrying pairwise-distinct sequence numbers, the text
exposed by the reader is independent of arrival order — two arrival orders of
the same chunks (each accumulated by `appendChunk`) expose the same
`orderedTextContent`, and that text is exactly the concatenation of the
chunks' contents in ascending sequence-number order (`asc` being any
ascending arrangement of the same chunks). -/
theorem C2_ordered_text (arrivals1 arrivals2 asc : List TextChunk)
    (hperm : arrivals1.Perm arrivals2)
    (hnodup : (arrivals1.map chunkKey).Nodup)
    (hasc : asc.Perm arrivals1) (hsorted : asc.Sorted seqLT) :
    orderedTextContent (List.foldl appendChunk [] arrivals1) =
      orderedTextContent (List.foldl appendChunk [] arrivals2) ∧
    orderedTextContent (List.foldl appendChunk [] arrivals1) = joinContents asc := by
  rw [foldl_appendChunk arrivals1 [], foldl_appendChunk arrivals2 [],
    List.nil_append, List.nil_append]
  have hnodup2 : (arrivals2.map chunkKey).Nodup := ((hperm.map chunkKey).nodup_iff).mp hnodup
  have hs1 : (arrivals1.insertionSort seqLE).Sorted seqLT :=
    insertionSort_sorted_lt arrivals1 hnodup
  have hs2 : (arrivals2.insertionSort seqLE).Sorted seqLT :=
    insertionSort_sorted_lt arrivals2 hnodup2
  have hp12 : (arrivals1.insertionSort seqLE).Perm (arrivals2.insertionSort seqLE) :=
    (List.perm_insertionSort seqLE arrivals1).trans
      (hperm.trans (List.perm_insertionSort seqLE arrivals2).symm)
  have heq12 : arrivals1.insertionSort seqLE = arrivals2.insertionSort seqLE :=
    sorted_arrangement_unique _ _ hp12 hs1 hs2
  have hpasc : (arrivals1.insertionSort seqLE).Perm asc :=
    (List.perm_insertionSort seqLE arrivals1).trans hasc.symm
  have heqasc : arrivals1.insertionSort seqLE = asc :=
    sorted_arrangement_unique _ _ hpasc hs1 hsorted
  constructor
  · unfold orderedTextContent
    rw [heq12]
  · unfold orderedTextContent joinContents
    rw [heqasc]

/-- C2 witness: three chunks arriving out of order expose the same text as
their in-order arrival, namely the ascending concatenation. -/
theorem C2_witness :
    orderedTextContent (List.foldl appendChunk []
        [⟨"cc", some 3⟩, ⟨"a", some 1⟩, ⟨"b", some 2⟩]) =
      orderedTextContent (List.foldl appendChunk []
        [⟨"a", some 1⟩, ⟨"b", some 2⟩, ⟨"cc", some 3⟩]) ∧
    orderedTextContent (List.foldl appendChunk []
        [⟨"cc", some 3⟩, ⟨"a", some 1⟩, ⟨"b", some 2⟩]) =
      joinContents [⟨"a", some 1⟩, ⟨"b", some 2⟩, ⟨"cc", some 3⟩] :=
  C2_ordered_text [⟨"cc", some 3⟩, ⟨"a", some 1⟩, ⟨"b", some 2⟩]
    [⟨"a", some 1⟩, ⟨"b", some 2⟩, ⟨"cc", some 3⟩]
    [⟨"a", some 1⟩, ⟨"b", some 2⟩, ⟨"cc", some 3⟩]
    (by decide) (by decide) (by decide) (by decide)

/-! ## C6: bounded retries, bounded delays -/

/-- Helper: the retry loop starting at attempt `a` ends at some attempt
between `a` and `max a maxAttempts`, and returns exactly that attempt's
outcome. -/
theorem executeRequestFrom_spec (outcomes : Nat → Except ApiError String)
    (cond : ApiError → Nat → Bool) (maxAttempts : Nat) :
    ∀ n a, maxAttempts - a ≤ n →
      a ≤ (executeRequestFrom outcomes cond maxAttempts a).1 ∧
      (executeRequestFrom outcomes cond maxAttempts a).1 ≤ max a maxAttempts ∧
      (executeRequestFrom outcomes cond maxAttempts a).2 =
        outcomes (executeRequestFrom outcomes cond maxAttempts a).1 := by
  intro n
  induction n with
  | zero =>
    intro a ha
    have hle : maxAttempts ≤ a := by omega
    rw [executeRequestFrom, dif_pos hle]
    exact ⟨Nat.le_refl a, Nat.le_max_left _ _, rfl⟩
  | succ n ih =>
    intro a ha
    by_cases hle : maxAttempts ≤ a
    · rw [executeRequestFrom, dif_pos hle]
      exact ⟨Nat.le_refl a, Nat.le_max_left _ _, rfl⟩
    · rw [executeRequestFrom, dif_neg hle]
      rcases hout : outcomes a with e | v
      · dsimp only
        by_cases hc : cond e a = true
        · rw [if_pos hc]
          have hrec := ih (a + 1) (by omega)
          refine ⟨by omega, ?_, hrec.2.2⟩
          have : max (a + 1) maxAttempts = maxAttempts := by
            rw [Nat.max_eq_right]; omega
          have h2 := hrec.2.1
          rw [this] at h2
          exact Nat.le_trans h2 (Nat.le_max_right _ _)
        · rw [if_neg hc]
          exact ⟨Nat.le_refl a, Nat.le_max_left _ _, hout.symm⟩
      · exact ⟨Nat.le_refl a, Nat.le_max_left _ _, hout.symm⟩


/-- C6: the retry loop performs at most `maxAttempts` attempts and then
terminates, returning the last attempt's result or raising its error (or the
generic exhaustion error when the loop never runs); and every backoff delay
computed by `calculateRetryDelay` is non-negative and never exceeds the
configured (non-negative) `maxDelay`. -/
theorem C6_retry_bounded (outcomes : Nat → Except ApiError String)
    (cond : ApiError → Nat → Bool) (cfg : RetryConfig) (rand : ℚ) (attempt : Nat)
    (hmax : 0 ≤ cfg.maxDelay) :
    (executeRequest outcomes cond cfg.maxAttempts).1 ≤ cfg.maxAttempts ∧
    (0 < (executeRequest outcomes cond cfg.maxAttempts).1 →
      (executeRequest outcomes cond cfg.maxAttempts).2 =
        outcomes (executeRequest outcomes cond cfg.maxAttempts).1) ∧
    ((executeRequest outcomes cond cfg.maxAttempts).1 = 0 →
      (executeRequest outcomes cond cfg.maxAttempts).2 =
        .error (.genericError "Request failed after all retry attempts")) ∧
    0 ≤ calculateRetryDelay attempt cfg rand ∧
    calculateRetryDelay attempt cfg rand ≤ cfg.maxDelay := by
  refine ⟨?_, ?_, ?_, ?_, ?_⟩
  · unfold executeRequest
    by_cases h0 : cfg.maxAttempts = 0
    · rw [if_pos h0, h0]
    · rw [if_neg h0]
      have h := (executeRequestFrom_spec outcomes cond cfg.maxAttempts
        (cfg.maxAttempts - 1) 1 (by omega)).2.1
      rw [Nat.max_eq_right (by omega)] at h
      exact h
  · intro hpos
    unfold executeRequest at *
    by_cases h0 : cfg.maxAttempts = 0
    · rw [if_pos h0] at hpos
      exact absurd hpos (by simp)
    · rw [if_neg h0] at *
      exact (executeRequestFrom_spec outcomes cond cfg.maxAttempts
        (cfg.maxAttempts - 1) 1 (by omega)).2.2
  · intro hzero
    unfold executeRequest at *
    by_cases h0 : cfg.maxAttempts = 0
    · rw [if_pos h0]
    · rw [if_neg h0] at hzero
      have h := (executeRequestFrom_spec outcomes cond cfg.maxAttempts
        (cfg.maxAttempts - 1) 1 (by omega)).1
      omega
  · unfold calculateRetryDelay
    exact le_max_right _ 0
  · unfold calculateRetryDelay
    exact max_le (min_le_right _ _) hmax

/-- C6 witness: the theorem at the default configuration, with every attempt
failing retryably. -/
theorem C6_witness :
    (executeRequest (fun _ => .error .networkError) (fun _ _ => true)
      DEFAULT_RETRY_CONFIG.maxAttempts).1 ≤ DEFAULT_RETRY_CONFIG.maxAttempts ∧
    (0 < (executeRequest (fun _ => .error .networkError) (fun _ _ => true)
        DEFAULT_RETRY_CONFIG.maxAttempts).1 →
      (executeRequest (fun _ => .error .networkError) (fun _ _ => true)
        DEFAULT_RETRY_CONFIG.maxAttempts).2 =
        (fun _ => (.error .networkError : Except ApiError String))
          ((executeRequest (fun _ => .error .networkError) (fun _ _ => true)
            DEFAULT_RETRY_CONFIG.maxAttempts).1)) ∧
    ((executeRequest (fun _ => .error .networkError) (fun _ _ => true)
        DEFAULT_RETRY_CONFIG.maxAttempts).1 = 0 →
      (executeRequest (fun _ => .error .networkError) (fun _ _ => true)
        DEFAULT_RETRY_CONFIG.maxAttempts).2 =
        .error (.genericError "Request failed after all retry attempts")) ∧
    0 ≤ calculateRetryDelay 2 DEFAULT_RETRY_CONFIG (1/2) ∧
    calculateRetryDelay 2 DEFAULT_RETRY_CONFIG (1/2) ≤ DEFAULT_RETRY_CONFIG.maxDelay :=
  C6_retry_bounded (fun _ => .error .networkError) (fun _ _ => true)
    DEFAULT_RETRY_CONFIG (1/2) 2 (by norm_num [DEFAULT_RETRY_CONFIG])

/-! ## C3: timeout bounding of external calls -/

/-- C3 counterexample: with the default budget T = 30000 ms, a request whose
auth-session lookup alone takes 40000 ms keeps the caller blocked for
40000 ms > T before the (late) structured timeout error is returned — the
session lookup preceding the fetch is not governed by the abort timer, so the
caller can be blocked longer than T. -/
theorem C3_counterexample :
    effectiveTimeout none = 30000 ∧
    (performRequest none ⟨40000, 0, .ok "body"⟩).elapsed = 40000 ∧
    effectiveTimeout none < (performRequest none ⟨40000, 0, .ok "body"⟩).elapsed ∧
    (performRequest none ⟨40000, 0, .ok "body"⟩).result = .error .timeoutError := by
  refine ⟨rfl, ?_, ?_, ?_⟩ <;>
    simp [performRequest, effectiveTimeout]

/-- C3 (amended): for any request with timeout budget T (default 30000 ms,
also substituted for a configured 0), the caller is blocked at most
max(T, auth-session-lookup duration): the fetch phase is always cut off by the
abort timer at T and whenever the underlying operation has not completed
within T the call returns the structured TimeoutError, and when it does
complete in budget the fetch outcome is returned after its actual duration;
only the session lookup preceding the fetch escapes the timer, so the
claimed unconditional bound of T holds whenever that lookup is instantaneous
but not in general. -/
theorem C3_timeout_bound (timeoutCfg : Option Nat) (t : RequestTiming) :
    (performRequest timeoutCfg t).elapsed ≤
      max (effectiveTimeout timeoutCfg) t.authDuration ∧
    (effectiveTimeout timeoutCfg < t.authDuration + t.fetchDuration →
      (performRequest timeoutCfg t).result = .error .timeoutError) ∧
    (t.authDuration = 0 →
      (performRequest timeoutCfg t).elapsed ≤ effectiveTimeout timeoutCfg) ∧
    (t.authDuration < effectiveTimeout timeoutCfg ∧
        t.authDuration + t.fetchDuration ≤ effectiveTimeout timeoutCfg →
      (performRequest timeoutCfg t).result = t.fetchOutcome ∧
      (performRequest timeoutCfg t).elapsed = t.authDuration + t.fetchDuration) := by
  unfold performRequest
  by_cases h1 : effectiveTimeout timeoutCfg ≤ t.authDuration
  · rw [if_pos h1]
    dsimp only
    exact ⟨Nat.le_max_right _ _, fun _ => rfl, fun h0 => by omega,
      fun h => absurd h.1 (by omega)⟩
  · rw [if_neg h1]
    by_cases h2 : t.authDuration + t.fetchDuration ≤ effectiveTimeout timeoutCfg
    · rw [if_pos h2]
      dsimp only
      exact ⟨Nat.le_trans h2 (Nat.le_max_left _ _), fun h => by omega,
        fun _ => h2, fun _ => ⟨rfl, rfl⟩⟩
    · rw [if_neg h2]
      dsimp only
      exact ⟨Nat.le_max_left _ _, fun _ => rfl, fun _ => Nat.le_refl _,
        fun h => absurd h.2 h2⟩

/-- C3 witness: the amended theorem at a 2000 ms budget with a fetch that
would take 10000 ms — the caller is released at the 2000 ms bound with the
structured timeout error. -/
theorem C3_witness :
    (performRequest (some 2000) ⟨100, 10000, .ok "body"⟩).elapsed ≤
      max (effectiveTimeout (some 2000)) 100 ∧
    (effectiveTimeout (some 2000) < 100 + 10000 →
      (performRequest (some 2000) ⟨100, 10000, .ok "body"⟩).result =
        .error .timeoutError) ∧
    (100 = 0 →
      (performRequest (some 2000) ⟨100, 10000, .ok "body"⟩).elapsed ≤
        effectiveTimeout (some 2000)) ∧
    (100 < effectiveTimeout (some 2000) ∧ 100 + 10000 ≤ effectiveTimeout (some 2000) →
      (performRequest (some 2000) ⟨100, 10000, .ok "body"⟩).result = .ok "body" ∧
      (performRequest (some 2000) ⟨100, 10000, .ok "body"⟩).elapsed = 100 + 10000) :=
  C3_timeout_bound (some 2000) ⟨100, 10000, .ok "body"⟩

/-! ## C8: at most one valid lock per run -/

/-- Helper: the invariant only weakens as time advances (records only
expire). -/
theorem AtMostOneValid_mono (store : List RunLockRecord) (t t' : Nat)
    (h : AtMostOneValid store t) (htt : t ≤ t') : AtMostOneValid store t' := by
  intro l1 h1 l2 h2 hid hv1 hv2
  exact h l1 h1 l2 h2 hid (Nat.lt_of_le_of_lt htt hv1) (Nat.lt_of_le_of_lt htt hv2)

/-- Helper: every single store operation preserves the at-most-one-valid-lock
invariant at its own timestamp. -/
theorem lockApplyOp_preserves (store : List RunLockRecord) (t t' : Nat) (op : LockOp)
    (h : AtMostOneValid store t) (htt : t ≤ t') :
    AtMostOneValid (lockApplyOp store t' op) t' := by
  have h' : AtMostOneValid store t' := AtMostOneValid_mono store t t' h htt
  cases op with
  | acquire runId holderId ttl =>
    unfold lockApplyOp
    dsimp only
    by_cases hany : (store.any fun l => l.runId = runId ∧ lockValidAt l t') = true
    · rw [if_pos hany]
      exact h'
    · rw [if_neg hany]
      have hnone : ∀ l ∈ store, l.runId = runId → ¬lockValidAt l t' := by
        intro l hl hid hv
        apply hany
        rw [List.any_eq_true]
        exact ⟨l, hl, by simp [hid, hv]⟩
      intro l1 h1 l2 h2 hid hv1 hv2
      rcases List.mem_cons.mp h1 with rfl | h1'
      · rcases List.mem_cons.mp h2 with rfl | h2'
        · rfl
        · exact absurd hv2 (hnone l2 h2' (by exact hid.symm))
      · rcases List.mem_cons.mp h2 with rfl | h2'
        · exact absurd hv1 (hnone l1 h1' (by exact hid))
        · exact h' l1 h1' l2 h2' hid hv1 hv2
  | release runId holderId =>
    unfold lockApplyOp
    dsimp only
    intro l1 h1 l2 h2 hid hv1 hv2
    exact h' l1 (List.mem_of_mem_filter h1) l2 (List.mem_of_mem_filter h2) hid hv1 hv2
  | renew runId holderId ttl =>
    unfold lockApplyOp
    dsimp only
    intro l1 h1 l2 h2 hid hv1 hv2
    rcases List.mem_map.mp h1 with ⟨a1, ha1, hf1⟩
    rcases List.mem_map.mp h2 with ⟨a2, ha2, hf2⟩
    by_cases g1 : a1.runId = runId ∧ a1.holderId = holderId ∧ lockValidAt a1 t'
    · by_cases g2 : a2.runId = runId ∧ a2.holderId = holderId ∧ lockValidAt a2 t'
      · rw [if_pos g1] at hf1
        rw [if_pos g2] at hf2
        have e12 : a1 = a2 := h' a1 ha1 a2 ha2 (g1.1.trans g2.1.symm) g1.2.2 g2.2.2
        rw [← hf1, ← hf2, e12]
      · rw [if_pos g1] at hf1
        rw [if_neg g2] at hf2
        subst hf1
        subst hf2
        have hidv : a1.runId = a2.runId := hid
        have e12 : a1 = a2 := h' a1 ha1 a2 ha2 hidv g1.2.2 hv2
        rw [e12] at g1
        exact absurd g1 g2
    · by_cases g2 : a2.runId = runId ∧ a2.holderId = holderId ∧ lockValidAt a2 t'
      · rw [if_neg g1] at hf1
        rw [if_pos g2] at hf2
        subst hf1
        subst hf2
        have hidv : a1.runId = a2.runId := hid
        have e12 : a1 = a2 := h' a1 ha1 a2 ha2 hidv hv1 g2.2.2
        rw [← e12] at g2
        exact absurd g2 g1
      · rw [if_neg g1] at hf1
        rw [if_neg g2] at hf2
        subst hf1
        subst hf2
        exact h' a1 ha1 a2 ha2 hid hv1 hv2

/-- C8: for every serialized history of acquire/release/renew events with
nondecreasing timestamps (any interleaving of N concurrent claim attempts
serializes this way through the store's atomic test-and-set), if the initial
store satisfies the at-most-one-valid-lock-per-runId invariant at the start
instant then the resulting store satisfies it at every instant from the last
event on: any two non-expired lock records for the same runId coincide, so at
most one holder owns a valid lock for each run. -/
theorem C8_lock_mutual_exclusion (ops : List (Nat × LockOp)) :
    ∀ (store : List RunLockRecord) (t0 : Nat),
      AtMostOneValid store t0 →
      List.Chain (fun a b => a ≤ b) t0 (ops.map Prod.fst) →
      ∀ t, lockOpsEndTime t0 ops ≤ t →
        AtMostOneValid (lockApplyOps store ops) t := by
  induction ops with
  | nil =>
    intro store t0 hinv _ t ht
    exact AtMostOneValid_mono store t0 t hinv ht
  | cons e rest ih =>
    rcases e with ⟨t1, op⟩
    intro store t0 hinv hchain t ht
    rw [List.map_cons, List.chain_cons] at hchain
    have h1 : AtMostOneValid (lockApplyOp store t1 op) t1 :=
      lockApplyOp_preserves store t0 t1 op hinv hchain.1
    exact ih (lockApplyOp store t1 op) t1 h1 hchain.2 t
      (by simpa [lockOpsEndTime] using ht)

/-- C8 witness: two competing claims for the same run — the store after the
history keeps the invariant at the final instant. -/
theorem C8_witness :
    AtMostOneValid
      (lockApplyOps [] [(0, .acquire "r" "A" 100), (10, .acquire "r" "B" 100)]) 10 :=
  C8_lock_mutual_exclusion [(0, .acquire "r" "A" 100), (10, .acquire "r" "B" 100)]
    [] 0 (fun l1 h1 => absurd h1 (List.not_mem_nil l1))
    (.cons (by omega) (.cons (by omega) .nil)) 10 (by decide)
